import Mathlib

/-!
Verification of `src/optimize_images.py` (image optimization script).

The script optimizes a single image (`optimize_image`), a directory of
images (`optimize_directory`), and exposes a CLI (`main`).  We embed the
script shallowly: the filesystem is a map from paths to file entries, the
imaging library (PIL) is modelled at the granularity of the calls the
script makes (decode, convert, paste-on-white, resize, save), and the
encoder is an explicit parameter.  Python float arithmetic (used in the
resize-height computation) is modelled exactly, with IEEE-754 binary64
round-to-nearest-even on integer inputs in the normal range.
-/

namespace OptimizeImages

/-! ## IEEE-754 binary64 model (normal range, nonnegative values)

`optimize_images.py` line 50-51 computes
  `ratio = max_width / img.width` (Python float true division)
  `new_height = int(img.height * ratio)` (int→float conversion, float
  multiplication, truncation toward zero).
We model doubles as dyadic rationals `m * 2^e` with `m : Nat`, `e : Int`,
rounded to 53 significant bits by round-to-nearest, ties to even. -/

/-- Number of bits of `n` (0 for 0), by fuel recursion; `bitLen n` uses
fuel `n`, which is always sufficient since `n / 2 < n` for `n > 0`. -/
def bitLenAux : Nat → Nat → Nat
  | 0, _ => 0
  | fuel + 1, n => if n = 0 then 0 else bitLenAux fuel (n / 2) + 1

def bitLen (n : Nat) : Nat := bitLenAux n n

/-- Round `num / den` to the nearest integer, ties to even. -/
def roundHalfEvenDiv (num den : Nat) : Nat :=
  let q := num / den
  let r := num % den
  if 2 * r < den then q
  else if den < 2 * r then q + 1
  else if q % 2 = 0 then q else q + 1

/-- A dyadic rational `m * 2^e`, the value of a nonnegative double. -/
structure Dy where
  m : Nat
  e : Int
  deriving DecidableEq, Repr

/-- Round the exact value `p * 2^e` to a 53-bit significand
(round-to-nearest, ties to even). -/
def roundMantissa (p : Nat) (e : Int) : Dy :=
  let t := bitLen p
  if t ≤ 53 then ⟨p, e⟩
  else
    let s := t - 53
    ⟨roundHalfEvenDiv p (2 ^ s), e + s⟩

/-- The double nearest to `a / b` (`a, b > 0`): IEEE-correctly-rounded
division, which is also what CPython's `int.__truediv__` produces. -/
def rndDiv (a b : Nat) : Dy :=
  let k := 53 + bitLen b
  let p := a * 2 ^ k
  let t := bitLen (p / b)
  let s := t - 53
  ⟨roundHalfEvenDiv p (b * 2 ^ s), (s : Int) - k⟩

/-- The double nearest to the integer `h` (int→float conversion). -/
def rndNat (h : Nat) : Dy := roundMantissa h 0

/-- Float multiplication of (the double of) an integer by a double. -/
def rndMulNatDy (h : Nat) (d : Dy) : Dy :=
  let hd := rndNat h
  roundMantissa (hd.m * d.m) (hd.e + d.e)

/-- Floor of a nonnegative dyadic value (Python `int()` truncates toward
zero; all values here are nonnegative). -/
def Dy.floorNat (d : Dy) : Nat :=
  if 0 ≤ d.e then d.m * 2 ^ d.e.toNat else d.m / 2 ^ (-d.e).toNat

/-- `int(h * (mw / w))` as computed by the script with Python floats:
lines 50-51 of `optimize_images.py`. -/
def pyNewHeight (h mw w : Nat) : Nat :=
  (rndMulNatDy h (rndDiv mw w)).floorNat

/-! ## Python string and path primitives used by the script -/

/-- Python `str.lower()` (ASCII-adequate model). -/
def pyLower (s : String) : String := String.mk (s.data.map Char.toLower)

/-- Python `str.endswith(suffix)`. -/
def pyEndsWith (s suffix : String) : Bool := suffix.data.isSuffixOf s.data

/-- Index of the last occurrence of `c` in `cs`, if any. -/
def lastIdx (cs : List Char) (c : Char) : Option Nat :=
  ((cs.enum.filter (fun p => p.2 == c)).map Prod.fst).getLast?

/-- `os.path.splitext(p)[0]` (POSIX): strip the extension, i.e. everything
from the last `.` of the basename on, unless the basename consists only of
leading dots up to that point (CPython `genericpath._splitext`). -/
def splitextRoot (p : String) : String :=
  let cs := p.data
  match lastIdx cs '.' with
  | none => p
  | some dot =>
    let start := match lastIdx cs '/' with
      | none => 0
      | some sep => sep + 1
    if (List.range dot).any (fun i => start ≤ i && cs.getD i '.' != '.') then
      String.mk (cs.take dot)
    else p

/-- `os.path.join(d, f)` for a relative `f` and a `d` without trailing
separator, the shape used by the script. -/
def joinPath (d f : String) : String := d ++ "/" ++ f

/-! ## PIL model

The script uses PIL through: `Image.open`, `img.mode`, `img.size`,
`img.convert('RGB')`, `Image.new('RGB', size, (255,255,255))` followed by
`background.paste(img, mask=img.split()[3])`, `img.resize(..., LANCZOS)`,
and `img.save`.  We record the pixel content symbolically as the tree of
imaging operations applied to the decoded source. -/

/-- Symbolic pixel content: the imaging operations applied so far. -/
inductive ImgSrc where
  /-- content decoded from a file -/
  | file (path : String)
  /-- an opaque white RGB canvas of the image's size, onto which the
  original was pasted using its alpha channel (band 3) as the mask -/
  | whitePasted (orig : ImgSrc)
  /-- `convert(mode)` applied to the original -/
  | converted (orig : ImgSrc) (mode : String)
  /-- LANCZOS resize of the original to `w × h` -/
  | resized (orig : ImgSrc) (w h : Nat)
  deriving DecidableEq, Repr

/-- A decoded PIL image: mode, dimensions, and symbolic content. -/
structure PILImage where
  mode : String
  width : Nat
  height : Nat
  src : ImgSrc
  deriving DecidableEq, Repr

/-- Lines 40-42: white RGB background of the same size, `paste` with the
alpha band as mask; the pasted composite replaces `img`. -/
def pasteOnWhite (img : PILImage) : PILImage :=
  { mode := "RGB", width := img.width, height := img.height
    src := .whitePasted img.src }

/-- `img.convert('RGB')` (lines 44 and 46). -/
def convertRGB (img : PILImage) : PILImage :=
  { mode := "RGB", width := img.width, height := img.height
    src := .converted img.src "RGB" }

/-- Lines 36-46: normalize the color mode to RGB. -/
def normalizeToRGB (img : PILImage) : PILImage :=
  if img.mode = "RGBA" ∨ img.mode = "LA" ∨ img.mode = "P" then
    if img.mode = "RGBA" then pasteOnWhite img
    else convertRGB img
  else if img.mode ≠ "RGB" then convertRGB img
  else img

/-- Lines 49-52: downscale to `max_width` when the width exceeds it; the
new height is computed with Python float arithmetic (`pyNewHeight`). -/
def resizeStep (max_width : Nat) (img : PILImage) : PILImage :=
  if img.width > max_width then
    { mode := img.mode, width := max_width
      height := pyNewHeight img.height max_width img.width
      src := .resized img.src max_width (pyNewHeight img.height max_width img.width) }
  else img

/-- The full in-memory transformation of `optimize_image` (mode
normalization then conditional resize). -/
def transformImage (max_width : Nat) (img : PILImage) : PILImage :=
  resizeStep max_width (normalizeToRGB img)

/-! ## Filesystem and save model -/

/-- A file on disk: its byte size, and the image it decodes to
(`none` when `Image.open` would fail on it). -/
structure FileEntry where
  size : Nat
  image : Option PILImage

/-- The filesystem: a map from paths to files. -/
def FS : Type := String → Option FileEntry

/-- The keyword arguments of the `img.save` calls (lines 66, 68, 74). -/
inductive SaveArgs where
  | png (optimize : Bool) (compress_level : Option Nat)
  | jpeg (quality : Nat) (optimize : Bool)
  deriving DecidableEq, Repr

/-- An encoder: produces the written file for given save arguments and
image, or `none` when `img.save` raises (write failure). -/
def Encoder : Type := SaveArgs → PILImage → Option FileEntry

/-- Lines 60-74: choose the actual output path and the save arguments
from the output path's extension. -/
def resolveSave (output_path : String) (jpeg_quality : Nat) (png_optimize : Bool) :
    String × SaveArgs :=
  if pyEndsWith (pyLower output_path) ".png" then
    (output_path, if png_optimize then .png true (some 9) else .png false none)
  else
    let out :=
      if pyEndsWith (pyLower output_path) ".jpg" || pyEndsWith (pyLower output_path) ".jpeg"
      then output_path
      else splitextRoot output_path ++ ".jpg"
    (out, .jpeg jpeg_quality true)

/-- Line 77: the compression ratio, exactly 0 when the original size is 0. -/
def compression_ratio (original_size new_size : Nat) : ℚ :=
  if original_size > 0 then (1 - (new_size : ℚ) / (original_size : ℚ)) * 100 else 0

/-- Lines 26-89, `optimize_image`: returns
`((success, original_size, new_size), filesystem afterwards)`.  The
`try`/`except` of lines 26/87 maps every failing step (missing file,
decode error, save failure) to the result `(False, 0, 0)`; the written
file lands at the path chosen by `resolveSave`, and `new_size` is that
file's size (line 76 reads back the written output). -/
def optimize_image (enc : Encoder) (fs : FS) (input_path : String)
    (output_path : Option String) (max_width jpeg_quality : Nat)
    (png_optimize : Bool) : (Bool × Nat × Nat) × FS :=
  match fs input_path with
  | none => ((false, 0, 0), fs)
  | some entry =>
    let original_size := entry.size
    match entry.image with
    | none => ((false, 0, 0), fs)
    | some img0 =>
      let img := transformImage max_width img0
      let out0 := output_path.getD input_path
      let (out1, args) := resolveSave out0 jpeg_quality png_optimize
      match enc args img with
      | none => ((false, 0, 0), fs)
      | some written =>
        let fs1 : FS := fun p => if p = out1 then some written else fs p
        ((true, original_size, written.size), fs1)

/-! ## Directory batch (`optimize_directory`, lines 91-152) -/

/-- Line 107: the supported extensions. -/
def supported_formats : List String :=
  [".jpg", ".jpeg", ".png", ".bmp", ".gif", ".webp"]

/-- Line 112: `f.lower().endswith(supported_formats)`. -/
def isSupportedName (f : String) : Bool :=
  supported_formats.any (fun ext => pyEndsWith (pyLower f) ext)

/-- Lines 110-112: the files of the listing that are regular files and
have a supported extension. -/
def imageFilesOf (fs : FS) (listing : List String) (directory : String) :
    List String :=
  listing.filter (fun f => (fs (joinPath directory f)).isSome && isSupportedName f)

/-- The aggregate the batch reports (lines 122-124 and 147):
files found, successes, and the totals accumulated over successes. -/
structure BatchSummary where
  attempted : Nat
  succeeded : Nat
  total_original_size : Nat
  total_new_size : Nat
  deriving DecidableEq, Repr

/-- Lines 126-143, one iteration: determine the per-file paths, run
`optimize_image`, and accumulate counts and totals only on success.
(The `original_size` read on line 131 is never used by the code.) -/
def dirStep (enc : Encoder) (directory : String) (output_dir : Option String)
    (max_width jpeg_quality : Nat) (png_optimize : Bool)
    (acc : BatchSummary × FS) (image_file : String) : BatchSummary × FS :=
  let (s, fs) := acc
  let input_path := joinPath directory image_file
  let output_path := output_dir.map (fun od => joinPath od image_file)
  let (r, fs1) := optimize_image enc fs input_path output_path max_width
    jpeg_quality png_optimize
  if r.1 then
    ({ s with succeeded := s.succeeded + 1
              total_original_size := s.total_original_size + r.2.1
              total_new_size := s.total_new_size + r.2.2 }, fs1)
  else (s, fs1)

/-- Lines 91-152, `optimize_directory`.  `dir_exists` models
`os.path.exists(directory)` (line 102) and `listing` models
`os.listdir(directory)` (line 110); both early returns yield an empty
summary and an untouched filesystem. -/
def optimize_directory (enc : Encoder) (fs : FS) (dir_exists : Bool)
    (listing : List String) (directory : String) (output_dir : Option String)
    (max_width jpeg_quality : Nat) (png_optimize : Bool) : BatchSummary × FS :=
  if !dir_exists then (⟨0, 0, 0, 0⟩, fs)
  else
    let image_files := imageFilesOf fs listing directory
    if image_files.isEmpty then (⟨0, 0, 0, 0⟩, fs)
    else
      let (s, fs1) := image_files.foldl
        (dirStep enc directory output_dir max_width jpeg_quality png_optimize)
        (⟨image_files.length, 0, 0, 0⟩, fs)
      (s, fs1)

/-- Specification helper: run `optimize_image` on each file in turn,
returning the list of per-file results and the final filesystem. -/
def runList (enc : Encoder) (directory : String) (output_dir : Option String)
    (max_width jpeg_quality : Nat) (png_optimize : Bool) (fs : FS) :
    List String → List (Bool × Nat × Nat) × FS
  | [] => ([], fs)
  | f :: rest =>
    let (r, fs1) := optimize_image enc fs (joinPath directory f)
      (output_dir.map (fun od => joinPath od f)) max_width jpeg_quality png_optimize
    let (rs, fs2) := runList enc directory output_dir max_width jpeg_quality
      png_optimize fs1 rest
    (r :: rs, fs2)

/-! ## CLI (`main`, lines 154-178) -/

/-- What a `main` invocation does: exit with a code before any
processing, or run the batch to completion. -/
inductive MainOutcome where
  | exited (code : Nat)
  | ran (summary : BatchSummary)

/-- Lines 154-178, `main`: quality is validated first; out of
`1 ≤ quality ≤ 100` the process exits with status 1 before any directory
or file access; otherwise the batch runs.  The returned filesystem
witnesses whether files were touched.  (`argparse` gives `quality` as an
arbitrary `int`, hence `Int`.) -/
def main (enc : Encoder) (fs : FS) (dir_exists : Bool) (listing : List String)
    (dir : String) (output : Option String) (max_width : Nat) (quality : Int)
    (no_png_optimize : Bool) : MainOutcome × FS :=
  if ¬(1 ≤ quality ∧ quality ≤ 100) then (.exited 1, fs)
  else
    let (s, fs1) := optimize_directory enc fs dir_exists listing dir output
      max_width quality.toNat (!no_png_optimize)
    (.ran s, fs1)

/-! ## Concrete test fixtures -/

/-- An encoder that always writes a 10-byte file. -/
def wEnc : Encoder := fun _ _ => some ⟨10, none⟩

/-- A filesystem with one decodable 4×3 RGB image at `photo.bmp`. -/
def wFs : FS := fun p =>
  if p = "photo.bmp" then some ⟨100, some ⟨"RGB", 4, 3, .file "photo.bmp"⟩⟩
  else none

/-! ## Shared lemmas -/

/-- Mode normalization never changes the dimensions. -/
theorem normalize_dims (img : PILImage) :
    (normalizeToRGB img).width = img.width ∧
    (normalizeToRGB img).height = img.height := by
  unfold normalizeToRGB pasteOnWhite convertRGB
  split_ifs <;> exact ⟨rfl, rfl⟩

/-- Lowercasing distributes over appending. -/
theorem pyLower_append (s t : String) :
    pyLower (s ++ t) = pyLower s ++ pyLower t := by
  simp only [pyLower, String.data_append, List.map_append]
  rfl

/-- Appending a suffix makes `pyEndsWith` with that suffix true. -/
theorem pyEndsWith_append (s t : String) : pyEndsWith (s ++ t) t = true := by
  simp only [pyEndsWith, String.data_append, List.isSuffixOf_iff_suffix]
  exact List.suffix_append s.data t.data

/-- Appending `".jpg"` yields a path whose lowercase form ends in
`".jpg"`. -/
theorem pyEndsWith_lower_jpg (s : String) :
    pyEndsWith (pyLower (s ++ ".jpg")) ".jpg" = true := by
  rw [pyLower_append]
  have h : pyLower ".jpg" = ".jpg" := rfl
  rw [h]
  exact pyEndsWith_append _ _

/-! ## Claims -/

/-- C2: for every image whose decoded width is at most `max_width`,
`optimize_image` performs no resize: the transformed image keeps the
input dimensions, regardless of the height. -/
theorem claim_no_resize_below_max (max_width : Nat) (img : PILImage)
    (h : img.width ≤ max_width) :
    (transformImage max_width img).width = img.width ∧
    (transformImage max_width img).height = img.height := by
  have hn := normalize_dims img
  unfold transformImage resizeStep
  rw [hn.1, if_neg (by omega)]
  exact hn

/-- C2 witness: a 400×300 image at `max_width = 1200` keeps its size. -/
theorem claim_no_resize_below_max_witness :
    (transformImage 1200 ⟨"RGB", 400, 300, .file "icon.bmp"⟩).width = 400 ∧
    (transformImage 1200 ⟨"RGB", 400, 300, .file "icon.bmp"⟩).height = 300 :=
  claim_no_resize_below_max 1200 ⟨"RGB", 400, 300, .file "icon.bmp"⟩ (by decide)

/-- C1 counterexample: the claim's height formula
`floor(original_height * max_width / original_width)` does not match the
code.  A 1488×1240 image at `max_width = 1200` is resized to height 999
(`int(1240 * (1200 / 1488))` in Python float arithmetic), while
`⌊1240 * 1200 / 1488⌋ = 1000`. -/
theorem claim_resize_exact_floor_cex :
    (transformImage 1200 ⟨"RGB", 1488, 1240, .file "photo.jpg"⟩).height = 999 ∧
    1240 * 1200 / 1488 = 1000 ∧
    (transformImage 1200 ⟨"RGB", 1488, 1240, .file "photo.jpg"⟩).height ≠
      1240 * 1200 / 1488 := by
  refine ⟨by decide, by decide, by decide⟩

/-- C1 (amended): for every image whose decoded width exceeds
`max_width`, the transformed image has width exactly `max_width` and
height `int(height * (max_width / width))` evaluated in IEEE-754 double
arithmetic (`pyNewHeight`), which can fall one below the exact
`⌊height * max_width / width⌋`. -/
theorem claim_resize_above_max (max_width : Nat) (img : PILImage)
    (h : max_width < img.width) :
    (transformImage max_width img).width = max_width ∧
    (transformImage max_width img).height =
      pyNewHeight img.height max_width img.width := by
  have hn := normalize_dims img
  unfold transformImage resizeStep
  rw [hn.1, hn.2, if_pos (by omega)]
  exact ⟨rfl, rfl⟩

/-- C1 (amended) witness: the 1488×1240 image at `max_width = 1200` is
resized to 1200×999. -/
theorem claim_resize_above_max_witness :
    (transformImage 1200 ⟨"RGB", 1488, 1240, .file "w"⟩).width = 1200 ∧
    (transformImage 1200 ⟨"RGB", 1488, 1240, .file "w"⟩).height =
      pyNewHeight 1240 1200 1488 :=
  claim_resize_above_max 1200 ⟨"RGB", 1488, 1240, .file "w"⟩ (by decide)

/-- C3: color-mode normalization composites `RGBA` images onto an opaque
white canvas of the same dimensions via their alpha mask, converts
palette (`P`) and grayscale-with-alpha (`LA`) images directly to RGB with
no compositing, converts every other non-RGB mode to RGB, and always
yields mode RGB. -/
theorem claim_mode_normalization (img : PILImage) :
    (img.mode = "RGBA" →
      normalizeToRGB img =
        { mode := "RGB", width := img.width, height := img.height
          src := .whitePasted img.src }) ∧
    (img.mode = "LA" ∨ img.mode = "P" →
      normalizeToRGB img =
        { mode := "RGB", width := img.width, height := img.height
          src := .converted img.src "RGB" }) ∧
    (img.mode ≠ "RGBA" → img.mode ≠ "LA" → img.mode ≠ "P" → img.mode ≠ "RGB" →
      normalizeToRGB img =
        { mode := "RGB", width := img.width, height := img.height
          src := .converted img.src "RGB" }) ∧
    (normalizeToRGB img).mode = "RGB" := by
  unfold normalizeToRGB pasteOnWhite convertRGB
  refine ⟨fun h1 => ?_, fun h2 => ?_, fun h3 h4 h5 h6 => ?_, ?_⟩
  · rw [if_pos (Or.inl h1), if_pos h1]
  · rcases h2 with h2 | h2
    · rw [if_pos (Or.inr (Or.inl h2)), if_neg (by simp [h2])]
    · rw [if_pos (Or.inr (Or.inr h2)), if_neg (by simp [h2])]
  · rw [if_neg (by simp [h3, h4, h5]), if_pos h6]
  · split_ifs with ha hb hc <;> simp_all

/-- C3 witness: an RGBA image is pasted onto white; its alpha is the
mask. -/
theorem claim_mode_normalization_witness :
    normalizeToRGB ⟨"RGBA", 2, 3, .file "t.png"⟩ =
      ⟨"RGB", 2, 3, .whitePasted (.file "t.png")⟩ :=
  (claim_mode_normalization ⟨"RGBA", 2, 3, .file "t.png"⟩).1 rfl

/-- C4: the output encoding follows the output path's extension: a path
lowercase-ending in `.png` is saved as PNG with compression level 9 and
optimization exactly when `png_optimize` holds (plain PNG otherwise); any
other path is saved as JPEG at the configured quality with optimization,
and when it does not already end in `.jpg`/`.jpeg` (case-insensitive) its
extension is rewritten to `.jpg`, so the written path then lowercase-ends
in `.jpg`. -/
theorem claim_format_selection (p : String) (q : Nat) (po : Bool) :
    (pyEndsWith (pyLower p) ".png" = true →
      resolveSave p q po =
        (p, if po then .png true (some 9) else .png false none)) ∧
    (pyEndsWith (pyLower p) ".png" = false →
      resolveSave p q po =
        ((if pyEndsWith (pyLower p) ".jpg" || pyEndsWith (pyLower p) ".jpeg"
          then p else splitextRoot p ++ ".jpg"), .jpeg q true)) ∧
    (pyEndsWith (pyLower p) ".png" = false →
      pyEndsWith (pyLower p) ".jpg" = false →
      pyEndsWith (pyLower p) ".jpeg" = false →
      resolveSave p q po = (splitextRoot p ++ ".jpg", .jpeg q true) ∧
      pyEndsWith (pyLower (resolveSave p q po).1) ".jpg" = true) := by
  refine ⟨fun h => ?_, fun h => ?_, fun h h1 h2 => ?_⟩
  · simp [resolveSave, h]
  · simp [resolveSave, h]
  · have hr : resolveSave p q po = (splitextRoot p ++ ".jpg", .jpeg q true) := by
      simp [resolveSave, h, h1, h2]
    refine ⟨hr, ?_⟩
    rw [hr]
    simpa using pyEndsWith_lower_jpg (splitextRoot p)

/-- C4 witness: a `.PNG` path is saved as optimized PNG in place; a
`.bmp` path is rewritten to `.jpg` and saved as JPEG. -/
theorem claim_format_selection_witness :
    resolveSave "out/photo.PNG" 85 true = ("out/photo.PNG", .png true (some 9)) ∧
    resolveSave "out/icon.bmp" 85 true = ("out/icon.jpg", .jpeg 85 true) :=
  ⟨(claim_format_selection "out/photo.PNG" 85 true).1 (by decide),
   ((claim_format_selection "out/icon.bmp" 85 true).2.2 (by decide) (by decide)
     (by decide)).1⟩

/-- C5: every failing step of `optimize_image` (missing/unreadable input,
decode failure, save failure) yields the result `(False, 0, 0)` — no
exception escapes and the filesystem is untouched. -/
theorem claim_failure_isolated (enc : Encoder) (fs : FS) (ip : String)
    (op : Option String) (mw q : Nat) (po : Bool) :
    (fs ip = none → optimize_image enc fs ip op mw q po = ((false, 0, 0), fs)) ∧
    (∀ e, fs ip = some e → e.image = none →
      optimize_image enc fs ip op mw q po = ((false, 0, 0), fs)) ∧
    (∀ e img, fs ip = some e → e.image = some img →
      enc (resolveSave (op.getD ip) q po).2 (transformImage mw img) = none →
      optimize_image enc fs ip op mw q po = ((false, 0, 0), fs)) := by
  refine ⟨fun h => ?_, fun e he hi => ?_, fun e img he hi henc => ?_⟩
  · unfold optimize_image
    rw [h]
  · simp only [optimize_image, he, hi]
  · rcases hr : resolveSave (op.getD ip) q po with ⟨out1, args⟩
    rw [hr] at henc
    simp only [] at henc
    simp only [optimize_image, he, hi, hr, henc]

/-- C5 witness: on an empty filesystem every input is a failure. -/
theorem claim_failure_isolated_witness :
    optimize_image (fun _ _ => none) (fun _ => none) "a.jpg" none 1200 85 true =
      ((false, 0, 0), fun _ => none) :=
  (claim_failure_isolated (fun _ _ => none) (fun _ => none) "a.jpg" none
    1200 85 true).1 rfl

/-- C7: the reported compression ratio is `(1 - new/original) * 100` when
the original size is positive, and exactly 0 when it is 0. -/
theorem claim_compression_ratio (o n : Nat) :
    (0 < o → compression_ratio o n = (1 - (n : ℚ) / (o : ℚ)) * 100) ∧
    (o = 0 → compression_ratio o n = 0) := by
  constructor
  · intro h
    unfold compression_ratio
    rw [if_pos h]
  · intro h
    subst h
    unfold compression_ratio
    norm_num

/-- C7 witness: ratio 50% for 2 → 1 bytes, and 0 for an empty original. -/
theorem claim_compression_ratio_witness :
    compression_ratio 2 1 = (1 - (1 : ℚ) / (2 : ℚ)) * 100 ∧
    compression_ratio 0 7 = 0 :=
  ⟨(claim_compression_ratio 2 1).1 (by norm_num),
   (claim_compression_ratio 0 7).2 rfl⟩

/-- The fold of `dirStep` accumulates exactly the per-file results of
`runList`: the attempted count never changes, and the succeeded count and
both byte totals grow only by the successful results. -/
theorem foldl_dirStep_spec (enc : Encoder) (directory : String)
    (output_dir : Option String) (mw q : Nat) (po : Bool) (l : List String) :
    ∀ (s0 : BatchSummary) (fs : FS),
      l.foldl (dirStep enc directory output_dir mw q po) (s0, fs) =
        ({ attempted := s0.attempted
           succeeded := s0.succeeded +
             ((runList enc directory output_dir mw q po fs l).1.filter
               (fun r => r.1)).length
           total_original_size := s0.total_original_size +
             (((runList enc directory output_dir mw q po fs l).1.filter
               (fun r => r.1)).map (fun r => r.2.1)).sum
           total_new_size := s0.total_new_size +
             (((runList enc directory output_dir mw q po fs l).1.filter
               (fun r => r.1)).map (fun r => r.2.2)).sum },
         (runList enc directory output_dir mw q po fs l).2) := by
  induction l with
  | nil => intro s0 fs; simp [runList]
  | cons f rest ih =>
    intro s0 fs
    obtain ⟨a, sc, sor, snw⟩ := s0
    rcases hoi : optimize_image enc fs (joinPath directory f)
      (output_dir.map fun od => joinPath od f) mw q po with ⟨r, fs1⟩
    have hrun : runList enc directory output_dir mw q po fs (f :: rest) =
        (r :: (runList enc directory output_dir mw q po fs1 rest).1,
         (runList enc directory output_dir mw q po fs1 rest).2) := by
      simp [runList, hoi]
    have hstep : dirStep enc directory output_dir mw q po (⟨a, sc, sor, snw⟩, fs) f =
        (if r.1 then
          (⟨a, sc + 1, sor + r.2.1, snw + r.2.2⟩, fs1)
         else (⟨a, sc, sor, snw⟩, fs1)) := by
      simp [dirStep, hoi]
    rw [List.foldl_cons, hstep, hrun]
    rcases r with ⟨b, o, n⟩
    cases b
    · simp only [Bool.false_eq_true, if_false, ih]
      simp [List.filter_cons]
    · simp only [if_true, ih]
      simp [List.filter_cons]
      omega

/-- C6: a directory run never propagates a per-file exception — it is a
total fold over all matching files — and the summary counts every
matching file as attempted, increments the succeeded count and adds a
file's original/new sizes to the totals exactly when that file's
optimization succeeds, failed files contributing nothing. -/
theorem claim_batch_accumulation (enc : Encoder) (fs : FS)
    (listing : List String) (directory : String) (output_dir : Option String)
    (mw q : Nat) (po : Bool) :
    optimize_directory enc fs true listing directory output_dir mw q po =
      ({ attempted := (imageFilesOf fs listing directory).length
         succeeded :=
           ((runList enc directory output_dir mw q po fs
             (imageFilesOf fs listing directory)).1.filter
               (fun r => r.1)).length
         total_original_size :=
           (((runList enc directory output_dir mw q po fs
             (imageFilesOf fs listing directory)).1.filter
               (fun r => r.1)).map (fun r => r.2.1)).sum
         total_new_size :=
           (((runList enc directory output_dir mw q po fs
             (imageFilesOf fs listing directory)).1.filter
               (fun r => r.1)).map (fun r => r.2.2)).sum },
       (runList enc directory output_dir mw q po fs
         (imageFilesOf fs listing directory)).2) := by
  by_cases hE : (imageFilesOf fs listing directory).isEmpty = true
  · have h0 : imageFilesOf fs listing directory = [] := by
      simpa using hE
    simp [optimize_directory, h0, runList]
  · simp only [optimize_directory, Bool.not_true, Bool.false_eq_true, if_false, hE]
    rw [foldl_dirStep_spec]
    simp

/-- C8: `main` validates the quality first: out of `[1, 100]` the process
exits with status 1 and the filesystem is untouched — no listing or file
processing happens; inside the range the batch runs. -/
theorem claim_quality_validation (enc : Encoder) (fs : FS) (dir_exists : Bool)
    (listing : List String) (dir : String) (output : Option String)
    (mw : Nat) (quality : Int) (npo : Bool) :
    (¬(1 ≤ quality ∧ quality ≤ 100) →
      main enc fs dir_exists listing dir output mw quality npo =
        (.exited 1, fs)) ∧
    ((1 ≤ quality ∧ quality ≤ 100) →
      main enc fs dir_exists listing dir output mw quality npo =
        (.ran (optimize_directory enc fs dir_exists listing dir output mw
          quality.toNat (!npo)).1,
         (optimize_directory enc fs dir_exists listing dir output mw
          quality.toNat (!npo)).2)) := by
  constructor
  · intro h
    simp [main, h]
  · intro h
    simp [main, h, h.1, h.2]

/-- C8 witness: `quality = 150` exits with status 1 before touching any
file. -/
theorem claim_quality_validation_witness :
    main (fun _ _ => none) (fun _ => none) true [] "imgs" none 1200 150 false =
      (.exited 1, fun _ => none) :=
  (claim_quality_validation (fun _ _ => none) (fun _ => none) true [] "imgs"
    none 1200 150 false).1 (by decide)

/-- C9: in in-place mode (`output_path = None`), an input whose path ends
in none of `.jpg`/`.jpeg`/`.png` (case-insensitive) is written to a NEW
file at the input path with its extension replaced by `.jpg`; the
original input file is left unchanged on disk, and the reported
`new_size` is the size of the newly written `.jpg` file. -/
theorem claim_inplace_new_file (enc : Encoder) (fs : FS) (ip : String)
    (mw q : Nat) (po : Bool) (entry : FileEntry) (img : PILImage)
    (written : FileEntry)
    (hfs : fs ip = some entry) (himg : entry.image = some img)
    (hjpg : pyEndsWith (pyLower ip) ".jpg" = false)
    (hjpeg : pyEndsWith (pyLower ip) ".jpeg" = false)
    (hpng : pyEndsWith (pyLower ip) ".png" = false)
    (henc : enc (.jpeg q true) (transformImage mw img) = some written) :
    optimize_image enc fs ip none mw q po =
      ((true, entry.size, written.size),
       fun p => if p = splitextRoot ip ++ ".jpg" then some written else fs p) ∧
    splitextRoot ip ++ ".jpg" ≠ ip ∧
    (fun p => if p = splitextRoot ip ++ ".jpg" then some written else fs p) ip
      = fs ip := by
  have hne : splitextRoot ip ++ ".jpg" ≠ ip := by
    intro hcontra
    have h1 := pyEndsWith_lower_jpg (splitextRoot ip)
    rw [hcontra, hjpg] at h1
    exact Bool.noConfusion h1
  have hrs : resolveSave ip q po = (splitextRoot ip ++ ".jpg", .jpeg q true) := by
    simp [resolveSave, hpng, hjpg, hjpeg]
  refine ⟨?_, hne, ?_⟩
  · simp only [optimize_image, hfs, himg, Option.getD_none, hrs, henc]
  · have hip : ip ≠ splitextRoot ip ++ ".jpg" := fun hh => hne hh.symm
    simp [hip]

/-- C9 witness: a `photo.bmp` input in in-place mode writes `photo.jpg`,
reports the new file's 10 bytes, and leaves `photo.bmp` untouched. -/
theorem claim_inplace_new_file_witness :
    optimize_image wEnc wFs "photo.bmp" none 1200 85 true =
      ((true, 100, 10),
       fun p => if p = splitextRoot "photo.bmp" ++ ".jpg"
                then some (⟨10, none⟩ : FileEntry) else wFs p) ∧
    splitextRoot "photo.bmp" ++ ".jpg" ≠ "photo.bmp" ∧
    (fun p => if p = splitextRoot "photo.bmp" ++ ".jpg"
              then some (⟨10, none⟩ : FileEntry) else wFs p) "photo.bmp"
      = wFs "photo.bmp" :=
  claim_inplace_new_file wEnc wFs "photo.bmp" 1200 85 true
    ⟨100, some ⟨"RGB", 4, 3, .file "photo.bmp"⟩⟩ ⟨"RGB", 4, 3, .file "photo.bmp"⟩
    ⟨10, none⟩ rfl rfl (by decide) (by decide) (by decide) rfl

/-- C10: the `png_optimize` flag has no effect whatsoever when the output
path does not lowercase-end in `.png`: both runs return the same result
and write the same output. -/
theorem claim_png_flag_jpeg_noop (enc : Encoder) (fs : FS) (ip : String)
    (op : Option String) (mw q : Nat)
    (h : pyEndsWith (pyLower (op.getD ip)) ".png" = false) :
    optimize_image enc fs ip op mw q true =
      optimize_image enc fs ip op mw q false := by
  have hrs : resolveSave (op.getD ip) q true = resolveSave (op.getD ip) q false := by
    simp [resolveSave, h]
  simp only [optimize_image, hrs]

/-- C10 witness: on a `.bmp` input in in-place mode, runs with and
without PNG optimization coincide. -/
theorem claim_png_flag_jpeg_noop_witness :
    optimize_image wEnc wFs "photo.bmp" none 1200 85 true =
      optimize_image wEnc wFs "photo.bmp" none 1200 85 false :=
  claim_png_flag_jpeg_noop wEnc wFs "photo.bmp" none 1200 85 (by decide)

end OptimizeImages
